import Mathlib

set_option maxRecDepth 8000

/-! Shallow embedding of the shrink customer-segmentation pipeline
(`src/cust_seg.py` and `src/run_pipeline.py`). Dataframes are lists of
records, dates are integer day counts, numeric cells are rationals
(reals where the standard deviation is involved). Components of the
repository that are not under `src/` (`StdScale`, `PublicData`) and the
delegated library clustering are modelled from the specification, as
marked on their doc comments. -/

/-- Arithmetic mean of a list of rationals (pandas `.mean()` on a numeric
column); `0` on the empty list (division by zero in `ℚ`). -/
def qmean (xs : List ℚ) : ℚ := xs.sum / (xs.length : ℚ)

/-- One row of the cleaned, public-data-enriched transaction dataframe handed
to `CustSeg.transform`: one row per store-visit-item observation, with the
columns `cust_seg.py` reads. Store addresses (`address1`) are modelled as
numeric keys: the source only ever compares them for equality and sorts them
(pandas group keys), so the embedding uses `ℕ` for the key type. -/
structure Row where
  address1 : ℕ
  visit_date : ℤ
  upc : ℕ
  qty_shrink_per_day : ℚ
  shrink_value_per_day : ℚ
  POP2010 : ℚ
  FD_ratio : ℚ
  unemp_rate : ℚ
  dens_sq_mile : ℚ
deriving DecidableEq

/-- Rows of `df` belonging to store `a` (`self.df[ self.df.address1 == add ]`). -/
def storeRows (df : List Row) (a : ℕ) : List Row :=
  df.filter (fun r => r.address1 = a)

/-- The distinct visit dates of store `a`, sorted ascending: the second level
of the pandas index of `df.groupby(['address1', 'visit_date'])` restricted to
`a` (group keys are sorted, one entry per distinct key pair). -/
def CustSeg.visitIndex (df : List Row) (a : ℕ) : List ℤ :=
  List.insertionSort (· ≤ ·) ((storeRows df a).map Row.visit_date).dedup

/-- `num_visits = len(foo)` in `_last_visit` and `_days_between_visits`. -/
def CustSeg.num_visits (df : List Row) (a : ℕ) : ℕ :=
  (CustSeg.visitIndex df a).length

/-- `_last_visit`: `foo.index[num_visits - 1][1]`. -/
def CustSeg.last_visit (df : List Row) (a : ℕ) : ℤ :=
  (CustSeg.visitIndex df a).getD (CustSeg.num_visits df a - 1) 0

/-- `foo.index[0][1]` in `_days_between_visits`. -/
def CustSeg.first_visit (df : List Row) (a : ℕ) : ℤ :=
  (CustSeg.visitIndex df a).getD 0 0

/-- `_days_between_visits`: `(last_visit - first_visit).days / num_visits`
(Python 3 true division). -/
def CustSeg.days_between_visits (df : List Row) (a : ℕ) : ℚ :=
  ((CustSeg.last_visit df a - CustSeg.first_visit df a : ℤ) : ℚ) /
    (CustSeg.num_visits df a : ℚ)

/-- Size of one `(address1, visit_date)` group: the `.count()` entry for the
group (count of non-null cells; rows carry no nulls after cleaning). -/
def CustSeg.groupSize (df : List Row) (a : ℕ) (d : ℤ) : ℕ :=
  ((storeRows df a).filter (fun r => r.visit_date = d)).length

/-- First block of `_add_cols`: `avg_UPC_per_visit` is the per-store mean,
over the store's `(address1, visit_date)` groups, of the group row counts. -/
def CustSeg.avg_UPC_per_visit (df : List Row) (a : ℕ) : ℚ :=
  qmean ((CustSeg.visitIndex df a).map (fun d => (CustSeg.groupSize df a d : ℚ)))

/-- Sorted distinct store addresses: the index of `df.groupby(['address1'])`. -/
def sortedAddresses (df : List Row) : List ℕ :=
  List.insertionSort (· ≤ ·) (df.map Row.address1).dedup

/-- Per-store mean of a numeric transaction column
(`df.groupby(['address1']).mean()`). -/
def storeMean (df : List Row) (a : ℕ) (f : Row → ℚ) : ℚ :=
  qmean ((storeRows df a).map f)

/-- One row of `self.cust_table` after `build_cust_table` and `_add_cols`:
the six per-store mean columns, the joined `custs_by_address` columns
(`latitude` and `longitude` already deleted; the remaining joined columns are
the non-float customer-id indicator columns, modelled as `cust_ids`), and the
three derived columns. -/
structure CustRow where
  address1 : ℕ
  qty_shrink_per_day : ℚ
  shrink_value_per_day : ℚ
  POP2010 : ℚ
  FD_ratio : ℚ
  unemp_rate : ℚ
  dens_sq_mile : ℚ
  cust_ids : List ℕ
  avg_UPC_per_visit : ℚ
  days_between_visits : ℚ
  last_visit : ℤ
deriving DecidableEq

/-- `build_cust_table` followed by `_add_cols`: one row per distinct store
address (sorted, as the pandas group index), carrying the six column means,
the joined per-address customer columns (`custAdd`, the pickled
`custs_by_address` table modelled as a function of the address), and the three
derived columns added by `_add_cols`. -/
def CustSeg.build_cust_table (custAdd : ℕ → List ℕ) (df : List Row) :
    List CustRow :=
  (sortedAddresses df).map (fun a =>
    { address1 := a
      qty_shrink_per_day := storeMean df a Row.qty_shrink_per_day
      shrink_value_per_day := storeMean df a Row.shrink_value_per_day
      POP2010 := storeMean df a Row.POP2010
      FD_ratio := storeMean df a Row.FD_ratio
      unemp_rate := storeMean df a Row.unemp_rate
      dens_sq_mile := storeMean df a Row.dens_sq_mile
      cust_ids := custAdd a
      avg_UPC_per_visit := CustSeg.avg_UPC_per_visit df a
      days_between_visits := CustSeg.days_between_visits df a
      last_visit := CustSeg.last_visit df a })

/-- The float-dtype columns of `cust_table`, in column order
(`self.cust_table.columns[ self.cust_table.dtypes == float ]`; the joined
customer-id indicators are not float, `last_visit` is a datetime). -/
inductive FloatCol
  | qty | shrink | pop | fd | unemp | dens | avgUPC | daysBetween
deriving DecidableEq, BEq

def floatCols : List FloatCol :=
  [.qty, .shrink, .pop, .fd, .unemp, .dens, .avgUPC, .daysBetween]

/-- Value of a float column in a customer-table row. -/
def colVal : FloatCol → CustRow → ℚ
  | .qty => CustRow.qty_shrink_per_day
  | .shrink => CustRow.shrink_value_per_day
  | .pop => CustRow.POP2010
  | .fd => CustRow.FD_ratio
  | .unemp => CustRow.unemp_rate
  | .dens => CustRow.dens_sq_mile
  | .avgUPC => CustRow.avg_UPC_per_visit
  | .daysBetween => CustRow.days_between_visits

/-- Mean of a float column over a customer table. -/
def tableColMean (t : List CustRow) (c : FloatCol) : ℚ := qmean (t.map (colVal c))

/-- Modelled from the spec: `StdScale` (`std_scale.py`, not under `src/`),
§4.4, with `std=True, scale=False` as constructed by `_std_cust_table` —
mean-centering only on the float columns, no division by the standard
deviation, all other columns preserved unchanged. -/
def stdScaleCenter (t : List CustRow) : List CustRow :=
  t.map (fun r =>
    { r with
      qty_shrink_per_day := r.qty_shrink_per_day - tableColMean t .qty
      shrink_value_per_day := r.shrink_value_per_day - tableColMean t .shrink
      POP2010 := r.POP2010 - tableColMean t .pop
      FD_ratio := r.FD_ratio - tableColMean t .fd
      unemp_rate := r.unemp_rate - tableColMean t .unemp
      dens_sq_mile := r.dens_sq_mile - tableColMean t .dens
      avg_UPC_per_visit := r.avg_UPC_per_visit - tableColMean t .avgUPC
      days_between_visits := r.days_between_visits - tableColMean t .daysBetween })

/-- Column selection in `_cluster`: the float-dtype columns of `cust_table`
with `avg_UPC_per_visit` and `days_between_visits` removed
(`list.remove` removes the first occurrence, as `List.erase` does). -/
def shrink_cust_cols : List FloatCol :=
  (floatCols.erase .avgUPC).erase .daysBetween

/-- Squared euclidean distance between two feature vectors. -/
def sqDist (x y : List ℚ) : ℚ := (List.zipWith (fun a b => (a - b) ^ 2) x y).sum

/-- Index of the first minimum of a list (numpy-style argmin); `0` on `[]`. -/
def argmin : List ℚ → ℕ
  | [] => 0
  | [_] => 0
  | a :: b :: rest =>
      if a ≤ (b :: rest).getD (argmin (b :: rest)) 0 then 0
      else argmin (b :: rest) + 1

/-- Componentwise mean of a list of points. -/
def centroid : List (List ℚ) → List ℚ
  | [] => []
  | p :: ps =>
      (ps.foldl (fun acc q => List.zipWith (· + ·) acc q) p).map
        (fun x => x / ((ps.length + 1 : ℕ) : ℚ))

/-- One Lloyd update: every centroid is replaced by the mean of the points
nearest to it, and kept unchanged when no point is assigned to it. -/
def lloydStep (pts : List (List ℚ)) (cs : List (List ℚ)) : List (List ℚ) :=
  (List.range cs.length).map (fun i =>
    let members := pts.filter (fun p => argmin (cs.map (sqDist p)) = i)
    if members.isEmpty then cs.getD i [] else centroid members)

/-- Lloyd iteration under a fuel bound, stopping when the centroids are fixed
(the exact-arithmetic rendering of the `tol`-based stopping rule). -/
def lloydIter : ℕ → List (List ℚ) → List (List ℚ) → List (List ℚ)
  | 0, _, cs => cs
  | n + 1, pts, cs =>
      let cs' := lloydStep pts cs
      if cs' = cs then cs else lloydIter n pts cs'

/-- Modelled from the spec: the k-means fit is delegated to an external
library and out of scope (§1, §4.2); it is modelled as deterministic Lloyd
iteration. `seed` fixes the randomized initialization (which points serve as
the initial centroids); `fit_predict` labels every point with the index of
its nearest final centroid, so no point is left unassigned and every label
lies in `[0, k)` (§4.2 guarantees). -/
def kmeans_fit_predict (seed k maxIter : ℕ) (pts : List (List ℚ)) : List ℕ :=
  let cs := lloydIter maxIter pts ((pts.rotate seed).take k)
  pts.map (fun p => argmin (cs.map (sqDist p)))

/-- `max_iter=10000` from the `KMeans` construction in `_cluster`. -/
def kmMaxIter : ℕ := 10000

/-- A customer-table row together with its `cluster` column
(`pred.astype(str)`: the decimal rendering of the integer label). -/
structure ClustRow where
  base : CustRow
  cluster : String
deriving DecidableEq

/-- `CustSeg.transform`: builds the customer table from (a copy of) `df`,
mean-centers it (`_std_cust_table`), clusters the selected columns of the
centered table into `clusters` groups (`_cluster`), and writes the string
labels onto both the original and the centered table. Returns the pair
`(cust_table, std_cust_table)`; the source returns `cust_table` and keeps
`std_cust_table` on `self`. Plotting and the pickle write are I/O, out of
scope. -/
def CustSeg.transform (clusters seed : ℕ) (custAdd : ℕ → List ℕ)
    (df : List Row) : List ClustRow × List ClustRow :=
  let ct := CustSeg.build_cust_table custAdd df
  let sct := stdScaleCenter ct
  let pred := kmeans_fit_predict seed clusters kmMaxIter
    (sct.map (fun r => shrink_cust_cols.map (fun c => colVal c r)))
  (List.zipWith (fun r n => ⟨r, Nat.repr n⟩) ct pred,
   List.zipWith (fun r n => ⟨r, Nat.repr n⟩) sct pred)

/-- Python objects reachable in the `CustSeg.transform` call: dataframes and
customer tables. -/
inductive PyObj
  | frame (d : List Row)
  | table (t : List ClustRow)
deriving DecidableEq

/-- A small heap of Python objects: references are allocation order, every
allocated reference is below `next`. -/
structure Heap where
  mem : ℕ → Option PyObj
  next : ℕ

/-- Allocation of a fresh object. -/
def halloc (h : Heap) (o : PyObj) : Heap × ℕ :=
  (⟨fun n => if n = h.next then some o else h.mem n, h.next + 1⟩, h.next)

/-- `CustSeg.transform` as a heap computation, mirroring which objects the
method touches: `self.df = df.copy()` allocates a fresh value copy of the
caller's dataframe, `self.cust_table` and `self.std_cust_table` are fresh
objects built from that copy, and the caller's dataframe object is only ever
read. Returns the heap after the call and the reference to the returned
customer table (unchanged heap and input reference when `dfRef` is not a
dataframe). -/
def CustSeg.transformHeap (clusters seed : ℕ) (custAdd : ℕ → List ℕ)
    (h : Heap) (dfRef : ℕ) : Heap × ℕ :=
  match h.mem dfRef with
  | some (.frame d) =>
      let h1 := (halloc h (.frame d)).1
      let res := CustSeg.transform clusters seed custAdd d
      let h2p := halloc h1 (.table res.1)
      let h3 := (halloc h2p.1 (.table res.2)).1
      (h3, h2p.2)
  | _ => (h, dfRef)

/-- Per-store demographic and economic attributes joined by `PublicData`. -/
structure PubAttrs where
  POP2010 : ℚ
  FD_ratio : ℚ
  unemp_rate : ℚ
  dens_sq_mile : ℚ
deriving DecidableEq

/-- One row of the raw transaction dataframe before public data is joined. -/
structure RawRow where
  address1 : ℕ
  visit_date : ℤ
  upc : ℕ
  qty_shrink_per_day : ℚ
  shrink_value_per_day : ℚ
deriving DecidableEq

/-- Modelled from the spec: `PublicData` (`add_public_data.py`, not under
`src/`) "joins external demographic/economic attributes onto each row by
location key" (§2); with `remove_nan_rows=True` rows whose location has no
attributes are dropped. -/
def publicData_fit_transform (pub : ℕ → Option PubAttrs) (raw : List RawRow) :
    List Row :=
  raw.filterMap (fun r =>
    (pub r.address1).map (fun p =>
      { address1 := r.address1
        visit_date := r.visit_date
        upc := r.upc
        qty_shrink_per_day := r.qty_shrink_per_day
        shrink_value_per_day := r.shrink_value_per_day
        POP2010 := p.POP2010
        FD_ratio := p.FD_ratio
        unemp_rate := p.unemp_rate
        dens_sq_mile := p.dens_sq_mile }))

/-- The recomputation path of `run_cust_seg`: add public data, then cluster
with `CustSeg`, returning the customer table. -/
def run_cust_seg_compute (pub : ℕ → Option PubAttrs) (custAdd : ℕ → List ℕ)
    (num_clusts seed : ℕ) (df : List RawRow) : List ClustRow :=
  (CustSeg.transform num_clusts seed custAdd (publicData_fit_transform pub df)).1

/-- `run_cust_seg` from `run_pipeline.py`: when `load_table` is set, try to
return the pickled customer table; on any read failure fall through
(`except: pass`) to the recomputation path. The pickle read is I/O, modelled
by its outcome `cache`. -/
def run_cust_seg (cache : Except String (List ClustRow)) (load_table : Bool)
    (pub : ℕ → Option PubAttrs) (custAdd : ℕ → List ℕ) (num_clusts seed : ℕ)
    (df : List RawRow) : List ClustRow :=
  if load_table then
    match cache with
    | .ok t => t
    | .error _ => run_cust_seg_compute pub custAdd num_clusts seed df
  else run_cust_seg_compute pub custAdd num_clusts seed df

/-- Mean of a list of reals; `0` on the empty list. -/
noncomputable def rmean (xs : List ℝ) : ℝ := xs.sum / (xs.length : ℝ)

/-- Population standard deviation of a list of reals. -/
noncomputable def rstd (xs : List ℝ) : ℝ :=
  Real.sqrt (rmean (xs.map (fun x => (x - rmean xs) ^ 2)))

/-- The `std`/`scale` switches of a `StdScale` instance. -/
structure SSConfig where
  std : Bool
  scale : Bool
deriving DecidableEq

/-- `StdScale(std=True, scale=True)` as constructed in `run_pred_model` and
`run_forc_model`. -/
def ssFull : SSConfig := ⟨true, true⟩

/-- Fitted per-column standardization parameters: the column mean and
standard deviation. -/
structure ColParams where
  mean : ℝ
  sd : ℝ

/-- Modelled from the spec: the `fit` half of `StdScale` (`std_scale.py`, not
under `src/`), §4.4 — per-column mean and standard deviation over a reference
table. A feature table is a list of numeric columns. -/
noncomputable def stdScale_fit (t : List (List ℝ)) : List ColParams :=
  t.map (fun col => ⟨rmean col, rstd col⟩)

/-- Modelled from the spec: the `transform` half of `StdScale`, §4.4 —
`(x - mean) / std` columnwise, mean-centering only when `scale` is off,
identity when `std` is off. -/
noncomputable def stdScale_transform (cfg : SSConfig) (ps : List ColParams)
    (t : List (List ℝ)) : List (List ℝ) :=
  List.zipWith (fun p col => col.map (fun x =>
    (if cfg.std then x - p.mean else x) / (if cfg.scale then p.sd else 1))) ps t

/-- `fit_transform`: fit on a table, then transform that same table. -/
noncomputable def stdScale_fit_transform (cfg : SSConfig) (t : List (List ℝ)) :
    List (List ℝ) :=
  stdScale_transform cfg (stdScale_fit t) t

/-- The standardization step of `run_pred_model` (lines 86-88): one fresh
`StdScale(std=True, scale=True)` is fit-transformed on `X_train` and then
fit-transformed again on `X_test`; returns `(X_train_ss, X_test_ss)`. -/
noncomputable def run_pred_model_standardize (X_train X_test : List (List ℝ)) :
    List (List ℝ) × List (List ℝ) :=
  (stdScale_fit_transform ssFull X_train, stdScale_fit_transform ssFull X_test)

/-- The standardization step of `run_forc_model` (lines 151-154): the same
fresh scaler is fit-transformed on `X`, `X_train` and `X_test` in turn;
returns `(X_ss, X_train_ss, X_test_ss)`. -/
noncomputable def run_forc_model_standardize (X X_train X_test : List (List ℝ)) :
    List (List ℝ) × List (List ℝ) × List (List ℝ) :=
  (stdScale_fit_transform ssFull X,
   stdScale_fit_transform ssFull X_train,
   stdScale_fit_transform ssFull X_test)

/-! Helper lemmas. -/

theorem argmin_lt : ∀ (l : List ℚ), l ≠ [] → argmin l < l.length
  | [_], _ => by simp [argmin]
  | a :: b :: rest, _ => by
      have ih := argmin_lt (b :: rest) (List.cons_ne_nil _ _)
      simp only [argmin, List.length_cons] at ih ⊢
      split <;> omega

theorem lloydStep_length (pts cs : List (List ℚ)) :
    (lloydStep pts cs).length = cs.length := by
  simp [lloydStep]

theorem lloydIter_length : ∀ (n : ℕ) (pts cs : List (List ℚ)),
    (lloydIter n pts cs).length = cs.length
  | 0, _, _ => rfl
  | n + 1, pts, cs => by
      simp only [lloydIter]
      split
      · rfl
      · rw [lloydIter_length n pts (lloydStep pts cs), lloydStep_length]

theorem kmeans_label_lt (seed k maxIter : ℕ) (pts : List (List ℚ))
    (hk : 0 < k) (hlen : k ≤ pts.length) :
    ∀ n ∈ kmeans_fit_predict seed k maxIter pts, n < k := by
  intro n hn
  simp only [kmeans_fit_predict, List.mem_map] at hn
  obtain ⟨p, _, rfl⟩ := hn
  have hlencs : (lloydIter maxIter pts ((pts.rotate seed).take k)).length = k := by
    rw [lloydIter_length, List.length_take, List.length_rotate]
    omega
  have hne : (lloydIter maxIter pts ((pts.rotate seed).take k)).map (sqDist p) ≠ [] := by
    intro hcon
    rw [List.map_eq_nil_iff] at hcon
    rw [hcon] at hlencs
    simp at hlencs
    omega
  have := argmin_lt _ hne
  rwa [List.length_map, hlencs] at this

theorem zipWith_mk_cluster : ∀ (xs : List CustRow) (ns : List ℕ),
    xs.length = ns.length →
    (List.zipWith (fun r n => (⟨r, Nat.repr n⟩ : ClustRow)) xs ns).map
        ClustRow.cluster = ns.map Nat.repr
  | [], [], _ => rfl
  | [], _ :: _, h => by simp at h
  | _ :: _, [], h => by simp at h
  | x :: xs, n :: ns, h => by
      simp only [List.zipWith_cons_cons, List.map_cons]
      rw [zipWith_mk_cluster xs ns (by simpa using h)]

theorem zipWith_mk_addr : ∀ (xs : List CustRow) (ns : List ℕ),
    xs.length = ns.length →
    (List.zipWith (fun r n => (⟨r, Nat.repr n⟩ : ClustRow)) xs ns).map
        (fun r => r.base.address1) = xs.map CustRow.address1
  | [], [], _ => rfl
  | [], _ :: _, h => by simp at h
  | _ :: _, [], h => by simp at h
  | x :: xs, n :: ns, h => by
      simp only [List.zipWith_cons_cons, List.map_cons]
      rw [zipWith_mk_addr xs ns (by simpa using h)]

theorem mem_zipWith_mk : ∀ (xs : List CustRow) (ns : List ℕ) (x : ClustRow),
    x ∈ List.zipWith (fun r n => (⟨r, Nat.repr n⟩ : ClustRow)) xs ns →
    ∃ n ∈ ns, x.cluster = Nat.repr n
  | [], _, x, h => by simp at h
  | _ :: _, [], x, h => by simp at h
  | a :: xs, n :: ns, x, h => by
      rw [List.zipWith_cons_cons, List.mem_cons] at h
      rcases h with rfl | h
      · exact ⟨n, List.mem_cons_self _ _, rfl⟩
      · obtain ⟨m, hm, e⟩ := mem_zipWith_mk xs ns x h
        exact ⟨m, List.mem_cons_of_mem _ hm, e⟩

theorem stdScaleCenter_length (t : List CustRow) :
    (stdScaleCenter t).length = t.length := by
  simp [stdScaleCenter]

theorem stdScaleCenter_map_addr (t : List CustRow) :
    (stdScaleCenter t).map CustRow.address1 = t.map CustRow.address1 := by
  simp [stdScaleCenter, List.map_map]

theorem build_cust_table_map_addr (custAdd : ℕ → List ℕ) (df : List Row) :
    (CustSeg.build_cust_table custAdd df).map CustRow.address1 =
      sortedAddresses df := by
  unfold CustSeg.build_cust_table
  rw [List.map_map]
  exact List.map_id _

theorem sortedAddresses_nodup (df : List Row) : (sortedAddresses df).Nodup :=
  (List.perm_insertionSort _ _).nodup_iff.mpr (List.nodup_dedup _)

theorem mem_sortedAddresses (df : List Row) (s : ℕ) :
    s ∈ sortedAddresses df ↔ s ∈ df.map Row.address1 := by
  rw [sortedAddresses, (List.perm_insertionSort _ _).mem_iff, List.mem_dedup]

theorem getD_last_mem {l : List ℤ} (h : l ≠ []) : l.getD (l.length - 1) 0 ∈ l := by
  have hpos : 0 < l.length := List.length_pos.mpr h
  rw [List.getD_eq_getElem l 0 (by omega)]
  exact List.getElem_mem _

theorem getD_zero_mem {l : List ℤ} (h : l ≠ []) : l.getD 0 0 ∈ l := by
  have hpos : 0 < l.length := List.length_pos.mpr h
  rw [List.getD_eq_getElem l 0 hpos]
  exact List.getElem_mem _

theorem sorted_le_getD_last : ∀ {l : List ℤ}, l.Sorted (· ≤ ·) →
    ∀ x ∈ l, x ≤ l.getD (l.length - 1) 0
  | [], _, x, hx => by simp at hx
  | [a], _, x, hx => by
      rw [List.mem_singleton] at hx
      simp [hx, List.getD]
  | a :: b :: t, hs, x, hx => by
      obtain ⟨ha, hst⟩ := List.sorted_cons.mp hs
      have hstep : (a :: b :: t).getD ((a :: b :: t).length - 1) 0
          = (b :: t).getD ((b :: t).length - 1) 0 := by
        simp [List.getD]
      rw [hstep]
      rcases List.mem_cons.mp hx with rfl | hx'
      · exact le_trans (ha _ (getD_last_mem (List.cons_ne_nil _ _)))
          (le_refl _)
      · exact sorted_le_getD_last hst x hx'

theorem sorted_getD_zero_le : ∀ {l : List ℤ}, l.Sorted (· ≤ ·) →
    ∀ x ∈ l, l.getD 0 0 ≤ x
  | [], _, x, hx => by simp at hx
  | a :: t, hs, x, hx => by
      obtain ⟨ha, _⟩ := List.sorted_cons.mp hs
      rcases List.mem_cons.mp hx with rfl | hx'
      · simp [List.getD]
      · simpa [List.getD] using ha x hx'

theorem visitIndex_sorted (df : List Row) (a : ℕ) :
    (CustSeg.visitIndex df a).Sorted (· ≤ ·) :=
  List.sorted_insertionSort _ _

theorem mem_visitIndex (df : List Row) (a : ℕ) (d : ℤ) :
    d ∈ CustSeg.visitIndex df a ↔ d ∈ (storeRows df a).map Row.visit_date := by
  rw [CustSeg.visitIndex, (List.perm_insertionSort _ _).mem_iff, List.mem_dedup]

theorem visitIndex_ne_nil (df : List Row) (a : ℕ) (d : ℤ)
    (hd : d ∈ (storeRows df a).map Row.visit_date) :
    CustSeg.visitIndex df a ≠ [] :=
  List.ne_nil_of_mem ((mem_visitIndex df a d).mpr hd)

theorem num_visits_eq_dedup_length (df : List Row) (a : ℕ) :
    CustSeg.num_visits df a = ((storeRows df a).map Row.visit_date).dedup.length :=
  (List.perm_insertionSort _ _).length_eq

theorem visitIndex_last_eq (df : List Row) (a : ℕ) (M : ℤ)
    (hM : ((storeRows df a).map Row.visit_date).maximum = (M : WithBot ℤ)) :
    CustSeg.last_visit df a = M := by
  have hmemM : M ∈ (storeRows df a).map Row.visit_date := List.maximum_mem hM
  have hub : ∀ x ∈ (storeRows df a).map Row.visit_date, x ≤ M :=
    fun x hx => List.le_maximum_of_mem hx hM
  have hne : CustSeg.visitIndex df a ≠ [] := visitIndex_ne_nil df a M hmemM
  have hMin : M ∈ CustSeg.visitIndex df a := (mem_visitIndex df a M).mpr hmemM
  have h1 : CustSeg.last_visit df a ∈ (storeRows df a).map Row.visit_date := by
    rw [← mem_visitIndex]
    exact getD_last_mem hne
  have h2 : CustSeg.last_visit df a ≤ M := hub _ h1
  have h3 : M ≤ CustSeg.last_visit df a :=
    sorted_le_getD_last (visitIndex_sorted df a) M hMin
  omega

theorem visitIndex_first_eq (df : List Row) (a : ℕ) (m : ℤ)
    (hm : ((storeRows df a).map Row.visit_date).minimum = (m : WithTop ℤ)) :
    CustSeg.first_visit df a = m := by
  have hmemm : m ∈ (storeRows df a).map Row.visit_date := List.minimum_mem hm
  have hlb : ∀ x ∈ (storeRows df a).map Row.visit_date, m ≤ x :=
    fun x hx => List.minimum_le_of_mem hx hm
  have hne : CustSeg.visitIndex df a ≠ [] := visitIndex_ne_nil df a m hmemm
  have hmIn : m ∈ CustSeg.visitIndex df a := (mem_visitIndex df a m).mpr hmemm
  have h1 : CustSeg.first_visit df a ∈ (storeRows df a).map Row.visit_date := by
    rw [← mem_visitIndex]
    exact getD_zero_mem hne
  have h2 : m ≤ CustSeg.first_visit df a := hlb _ h1
  have h3 : CustSeg.first_visit df a ≤ m :=
    sorted_getD_zero_le (visitIndex_sorted df a) m hmIn
  omega

/-- Helper constructor for example rows. -/
def mkRow (a : ℕ) (d : ℤ) (u : ℕ) (q : ℚ) : Row :=
  { address1 := a, visit_date := d, upc := u, qty_shrink_per_day := q,
    shrink_value_per_day := q + 1, POP2010 := 100, FD_ratio := 2,
    unemp_rate := 5, dens_sq_mile := 50 }

/-- Example dataframe: store 1 has four evenly spaced visits on days 0, 10,
20, 30 (one item per visit), store 2 has visits on days 1 and 2. -/
def dfA : List Row :=
  [mkRow 1 0 1 3, mkRow 1 10 2 4, mkRow 1 20 3 5, mkRow 1 30 4 6,
   mkRow 2 1 1 10, mkRow 2 2 2 12]

/-- C7: for every store, the `last_visit` column computed by `CustSeg` equals
the maximum `visit_date` over all of that store's transaction rows. -/
theorem last_visit_eq_max_visit_date (df : List Row) (a : ℕ) (M : ℤ)
    (hM : ((storeRows df a).map Row.visit_date).maximum = (M : WithBot ℤ)) :
    CustSeg.last_visit df a = M :=
  visitIndex_last_eq df a M hM

/-- Witness for C7: on `dfA`, store 1's `last_visit` is day 30. -/
theorem last_visit_eq_max_visit_date_witness :
    ((storeRows dfA 1).map Row.visit_date).maximum = ((30 : ℤ) : WithBot ℤ) ∧
    CustSeg.last_visit dfA 1 = 30 :=
  ⟨by decide, last_visit_eq_max_visit_date dfA 1 30 (by decide)⟩

/-- C3: for every store, `days_between_visits` equals the elapsed days between
the store's first and last visit dates divided by its number of distinct
visit dates. -/
theorem days_between_visits_eq (df : List Row) (a : ℕ) (M m : ℤ)
    (hM : ((storeRows df a).map Row.visit_date).maximum = (M : WithBot ℤ))
    (hm : ((storeRows df a).map Row.visit_date).minimum = (m : WithTop ℤ)) :
    CustSeg.days_between_visits df a
      = ((M - m : ℤ) : ℚ) /
          ((((storeRows df a).map Row.visit_date).dedup.length : ℕ) : ℚ) := by
  rw [CustSeg.days_between_visits, visitIndex_last_eq df a M hM,
    visitIndex_first_eq df a m hm, num_visits_eq_dedup_length]

/-- Witness for C3: on `dfA`, store 1 has first visit 0, last visit 30, and 4
distinct visit dates. -/
theorem days_between_visits_eq_witness :
    ((storeRows dfA 1).map Row.visit_date).maximum = ((30 : ℤ) : WithBot ℤ) ∧
    ((storeRows dfA 1).map Row.visit_date).minimum = ((0 : ℤ) : WithTop ℤ) ∧
    CustSeg.days_between_visits dfA 1
      = ((30 - 0 : ℤ) : ℚ) /
          ((((storeRows dfA 1).map Row.visit_date).dedup.length : ℕ) : ℚ) :=
  ⟨by decide, by decide, days_between_visits_eq dfA 1 30 0 (by decide) (by decide)⟩

/-- C4 (code-bug exhibit): for store 1 of `dfA` — exactly 4 evenly spaced
visits spanning 30 days — the `days_between_visits` the code computes is
7.5 (30 elapsed days divided by the 4 visit groups), not the 10.0 that the
claim and the method's own docstring (average days between visits) give. -/
theorem days_between_visits_four_even_visits :
    CustSeg.days_between_visits dfA 1 = 15 / 2 ∧
    CustSeg.days_between_visits dfA 1 ≠ 10 := by
  have h : CustSeg.visitIndex dfA 1 = [0, 10, 20, 30] := by decide
  constructor <;>
  · unfold CustSeg.days_between_visits CustSeg.last_visit CustSeg.first_visit
      CustSeg.num_visits
    rw [h]
    norm_num [List.getD]

theorem mem_group (df : List Row) (a : ℕ) (d : ℤ) (r : Row)
    (hr : r ∈ (storeRows df a).filter (fun r => r.visit_date = d)) :
    r ∈ df ∧ r.address1 = a ∧ r.visit_date = d := by
  simp only [storeRows, List.mem_filter, decide_eq_true_eq] at hr
  exact ⟨hr.1.1, hr.1.2, hr.2⟩

theorem group_upc_nodup (df : List Row) (a : ℕ) (d : ℤ)
    (hnd : (df.map (fun r => (r.address1, r.visit_date, r.upc))).Nodup) :
    (((storeRows df a).filter (fun r => r.visit_date = d)).map Row.upc).Nodup := by
  have hsub : List.Sublist ((storeRows df a).filter (fun r => r.visit_date = d)) df :=
    (List.filter_sublist _).trans (List.filter_sublist _)
  have htri : (((storeRows df a).filter (fun r => r.visit_date = d)).map
      (fun r => (r.address1, r.visit_date, r.upc))).Nodup :=
    hnd.sublist (hsub.map _)
  have hcomp : ((storeRows df a).filter (fun r => r.visit_date = d)).map Row.upc
      = (((storeRows df a).filter (fun r => r.visit_date = d)).map
          (fun r => (r.address1, r.visit_date, r.upc))).map (fun t => t.2.2) := by
    rw [List.map_map]
    rfl
  rw [hcomp]
  refine List.Nodup.map_on ?_ htri
  intro t1 ht1 t2 ht2 he
  obtain ⟨r1, hr1, rfl⟩ := List.mem_map.mp ht1
  obtain ⟨r2, hr2, rfl⟩ := List.mem_map.mp ht2
  obtain ⟨-, ha1, hd1⟩ := mem_group df a d r1 hr1
  obtain ⟨-, ha2, hd2⟩ := mem_group df a d r2 hr2
  simp only at he
  rw [ha1, ha2, hd1, hd2, he]

/-- C6: for every store, `avg_UPC_per_visit` equals the mean, over the store's
distinct visit dates, of the number of distinct items recorded in each
`(store, visit-date)` group — provided each `(store, visit date, item)`
observation occurs in at most one row, as the data model prescribes. -/
theorem avg_UPC_per_visit_eq (df : List Row) (a : ℕ)
    (hnd : (df.map (fun r => (r.address1, r.visit_date, r.upc))).Nodup) :
    CustSeg.avg_UPC_per_visit df a
      = (((storeRows df a).map Row.visit_date).dedup.map
          (fun d => (((((storeRows df a).filter
              (fun r => r.visit_date = d)).map Row.upc).dedup.length : ℕ) : ℚ))).sum
        / ((((storeRows df a).map Row.visit_date).dedup.length : ℕ) : ℚ) := by
  have hpoint : ∀ d : ℤ, ((CustSeg.groupSize df a d : ℕ) : ℚ)
      = (((((storeRows df a).filter
          (fun r => r.visit_date = d)).map Row.upc).dedup.length : ℕ) : ℚ) := by
    intro d
    rw [CustSeg.groupSize, List.dedup_eq_self.mpr (group_upc_nodup df a d hnd),
      List.length_map]
  have hperm : List.Perm (CustSeg.visitIndex df a)
      ((storeRows df a).map Row.visit_date).dedup :=
    List.perm_insertionSort _ _
  have hpermmap := hperm.map (fun d => ((CustSeg.groupSize df a d : ℕ) : ℚ))
  rw [CustSeg.avg_UPC_per_visit, qmean, hpermmap.sum_eq, List.length_map,
    hperm.length_eq]
  congr 1
  exact congrArg List.sum (List.map_congr_left (fun d _ => hpoint d))

/-- Witness for C6: on `dfA`, store 1 averages one distinct item per visit. -/
theorem avg_UPC_per_visit_eq_witness :
    (dfA.map (fun r => (r.address1, r.visit_date, r.upc))).Nodup ∧
    CustSeg.avg_UPC_per_visit dfA 1
      = (((storeRows dfA 1).map Row.visit_date).dedup.map
          (fun d => (((((storeRows dfA 1).filter
              (fun r => r.visit_date = d)).map Row.upc).dedup.length : ℕ) : ℚ))).sum
        / ((((storeRows dfA 1).map Row.visit_date).dedup.length : ℕ) : ℚ) :=
  ⟨by decide, avg_UPC_per_visit_eq dfA 1 (by decide)⟩

theorem clusterInput_explicit (t : List CustRow) :
    (stdScaleCenter t).map (fun r => shrink_cust_cols.map (fun c => colVal c r))
      = t.map (fun r =>
          [r.qty_shrink_per_day - qmean (t.map CustRow.qty_shrink_per_day),
           r.shrink_value_per_day - qmean (t.map CustRow.shrink_value_per_day),
           r.POP2010 - qmean (t.map CustRow.POP2010),
           r.FD_ratio - qmean (t.map CustRow.FD_ratio),
           r.unemp_rate - qmean (t.map CustRow.unemp_rate),
           r.dens_sq_mile - qmean (t.map CustRow.dens_sq_mile)]) := by
  have hcols : shrink_cust_cols = [.qty, .shrink, .pop, .fd, .unemp, .dens] := rfl
  rw [stdScaleCenter, List.map_map]
  refine List.map_congr_left ?_
  intro r _
  simp [hcols, colVal, tableColMean]

/-- C5: the feature matrix handed to the k-means fit consists of exactly the
six float-dtype columns of `cust_table` other than `avg_UPC_per_visit` and
`days_between_visits`, taken from a copy of the table standardized by
mean-centering only — each cell is the raw cell minus its column mean, with
no division by a standard deviation. -/
theorem transform_feature_matrix (clusters seed : ℕ) (custAdd : ℕ → List ℕ)
    (df : List Row) :
    (CustSeg.transform clusters seed custAdd df).1
      = List.zipWith (fun r n => (⟨r, Nat.repr n⟩ : ClustRow))
          (CustSeg.build_cust_table custAdd df)
          (kmeans_fit_predict seed clusters kmMaxIter
            ((CustSeg.build_cust_table custAdd df).map (fun r =>
              [r.qty_shrink_per_day
                 - qmean ((CustSeg.build_cust_table custAdd df).map
                     CustRow.qty_shrink_per_day),
               r.shrink_value_per_day
                 - qmean ((CustSeg.build_cust_table custAdd df).map
                     CustRow.shrink_value_per_day),
               r.POP2010
                 - qmean ((CustSeg.build_cust_table custAdd df).map
                     CustRow.POP2010),
               r.FD_ratio
                 - qmean ((CustSeg.build_cust_table custAdd df).map
                     CustRow.FD_ratio),
               r.unemp_rate
                 - qmean ((CustSeg.build_cust_table custAdd df).map
                     CustRow.unemp_rate),
               r.dens_sq_mile
                 - qmean ((CustSeg.build_cust_table custAdd df).map
                     CustRow.dens_sq_mile)]))) := by
  simp only [CustSeg.transform]
  rw [clusterInput_explicit]

/-- C2: the returned customer table has exactly one row per distinct store
address; every row carries a cluster label that is the decimal string of an
integer in `[0, clusters)`; and the original and the standardized customer
tables carry identical labels on corresponding rows. -/
theorem transform_one_row_per_store (clusters seed : ℕ) (custAdd : ℕ → List ℕ)
    (df : List Row) (hk : 0 < clusters)
    (hn : clusters ≤ (sortedAddresses df).length) :
    ((CustSeg.transform clusters seed custAdd df).1.map
        (fun r => r.base.address1)).Nodup
    ∧ (∀ s : ℕ, s ∈ (CustSeg.transform clusters seed custAdd df).1.map
          (fun r => r.base.address1) ↔ s ∈ df.map Row.address1)
    ∧ (∀ r ∈ (CustSeg.transform clusters seed custAdd df).1,
        ∃ n : ℕ, n < clusters ∧ r.cluster = Nat.repr n)
    ∧ (CustSeg.transform clusters seed custAdd df).1.map ClustRow.cluster
        = (CustSeg.transform clusters seed custAdd df).2.map ClustRow.cluster
    ∧ (CustSeg.transform clusters seed custAdd df).1.map
          (fun r => r.base.address1)
        = (CustSeg.transform clusters seed custAdd df).2.map
            (fun r => r.base.address1) := by
  set ct := CustSeg.build_cust_table custAdd df with hct
  set pts := (stdScaleCenter ct).map
    (fun r => shrink_cust_cols.map (fun c => colVal c r)) with hpts
  set pred := kmeans_fit_predict seed clusters kmMaxIter pts with hpred
  have h1 : (CustSeg.transform clusters seed custAdd df).1
      = List.zipWith (fun r n => (⟨r, Nat.repr n⟩ : ClustRow)) ct pred := rfl
  have h2 : (CustSeg.transform clusters seed custAdd df).2
      = List.zipWith (fun r n => (⟨r, Nat.repr n⟩ : ClustRow))
          (stdScaleCenter ct) pred := rfl
  have hctlen : ct.length = (sortedAddresses df).length := by
    rw [hct, CustSeg.build_cust_table, List.length_map]
  have hsctlen : (stdScaleCenter ct).length = ct.length := stdScaleCenter_length ct
  have hptslen : pts.length = ct.length := by
    rw [hpts, List.length_map, hsctlen]
  have hpredlen : pred.length = pts.length := by
    simp [hpred, kmeans_fit_predict]
  have haddr1 : (CustSeg.transform clusters seed custAdd df).1.map
      (fun r => r.base.address1) = sortedAddresses df := by
    rw [h1, zipWith_mk_addr ct pred (by omega), hct, build_cust_table_map_addr]
  refine ⟨?_, ?_, ?_, ?_, ?_⟩
  · rw [haddr1]
    exact sortedAddresses_nodup df
  · intro s
    rw [haddr1]
    exact mem_sortedAddresses df s
  · intro r hr
    rw [h1] at hr
    obtain ⟨n, hnmem, he⟩ := mem_zipWith_mk ct pred r hr
    rw [hpred] at hnmem
    exact ⟨n, kmeans_label_lt seed clusters kmMaxIter pts hk (by omega) n hnmem, he⟩
  · rw [h1, h2, zipWith_mk_cluster ct pred (by omega),
      zipWith_mk_cluster (stdScaleCenter ct) pred (by omega)]
  · rw [h1, h2, zipWith_mk_addr ct pred (by omega),
      zipWith_mk_addr (stdScaleCenter ct) pred (by omega),
      stdScaleCenter_map_addr]

/-- Witness for C2: `dfA` has two distinct stores, clustered into two
clusters; every row of the returned table carries a label in `[0, 2)`. -/
theorem transform_one_row_per_store_witness :
    0 < 2 ∧ 2 ≤ (sortedAddresses dfA).length ∧
    (∀ r ∈ (CustSeg.transform 2 0 (fun _ => []) dfA).1,
      ∃ n : ℕ, n < 2 ∧ r.cluster = Nat.repr n) :=
  ⟨by norm_num, by decide,
    (transform_one_row_per_store 2 0 (fun _ => []) dfA (by norm_num)
      (by decide)).2.2.1⟩

/-- C8: two runs of `CustSeg` clustering on the same input with the same
fixed seed (and the fixed iteration and tolerance settings baked into the
model) induce the same partition of stores: any two rows land in one cluster
in the first run exactly when they do in the second run. -/
theorem transform_same_seed_same_partition (clusters seed1 seed2 : ℕ)
    (custAdd : ℕ → List ℕ) (df : List Row) (hseed : seed1 = seed2) (i j : ℕ) :
    ((CustSeg.transform clusters seed1 custAdd df).1[i]?.map ClustRow.cluster
      = (CustSeg.transform clusters seed1 custAdd df).1[j]?.map ClustRow.cluster)
    ↔ ((CustSeg.transform clusters seed2 custAdd df).1[i]?.map ClustRow.cluster
      = (CustSeg.transform clusters seed2 custAdd df).1[j]?.map
          ClustRow.cluster) := by
  subst hseed
  exact Iff.rfl

/-- Witness for C8 at a concrete input, seed and row pair. -/
theorem transform_same_seed_same_partition_witness :
    (0 : ℕ) = 0 ∧
    (((CustSeg.transform 2 0 (fun _ => []) dfA).1[0]?.map ClustRow.cluster
      = (CustSeg.transform 2 0 (fun _ => []) dfA).1[1]?.map ClustRow.cluster)
    ↔ ((CustSeg.transform 2 0 (fun _ => []) dfA).1[0]?.map ClustRow.cluster
      = (CustSeg.transform 2 0 (fun _ => []) dfA).1[1]?.map ClustRow.cluster)) :=
  ⟨rfl, transform_same_seed_same_partition 2 0 0 (fun _ => []) dfA rfl 0 1⟩

/-- C9: when `load_table` is set and the cached customer-table read fails,
`run_cust_seg` swallows the error and returns the customer table recomputed
from the input dataframe. -/
theorem run_cust_seg_error_fallback (msg : String) (pub : ℕ → Option PubAttrs)
    (custAdd : ℕ → List ℕ) (num_clusts seed : ℕ) (df : List RawRow) :
    run_cust_seg (.error msg) true pub custAdd num_clusts seed df
      = run_cust_seg_compute pub custAdd num_clusts seed df := rfl

/-- C10: `CustSeg.transform` never mutates the caller's dataframe: the object
the caller holds is byte-identical before and after the call (the method
works on `df.copy()` and on fresh table objects). -/
theorem transformHeap_preserves_input (clusters seed : ℕ)
    (custAdd : ℕ → List ℕ) (h : Heap) (dfRef : ℕ) (href : dfRef < h.next) :
    (CustSeg.transformHeap clusters seed custAdd h dfRef).1.mem dfRef
      = h.mem dfRef := by
  unfold CustSeg.transformHeap
  cases hmem : h.mem dfRef with
  | none => exact hmem
  | some o =>
    cases o with
    | table t => exact hmem
    | frame d =>
      simp only [halloc]
      rw [if_neg (by omega), if_neg (by omega), if_neg (by omega)]
      exact hmem

/-- Example heap holding the example dataframe at reference 0. -/
def heapA : Heap := ⟨fun n => if n = 0 then some (.frame dfA) else none, 1⟩

/-- Witness for C10 at a concrete heap and dataframe reference. -/
theorem transformHeap_preserves_input_witness :
    0 < heapA.next ∧
    (CustSeg.transformHeap 2 0 (fun _ => []) heapA 0).1.mem 0 = heapA.mem 0 :=
  ⟨by norm_num [heapA],
    transformHeap_preserves_input 2 0 (fun _ => []) heapA 0 (by norm_num [heapA])⟩

theorem rmean_train_col : rmean [(0 : ℝ), 2] = 1 := by norm_num [rmean]

theorem rstd_train_col : rstd [(0 : ℝ), 2] = 1 := by
  rw [rstd, rmean_train_col]
  norm_num [rmean]

theorem rmean_test_col : rmean [(0 : ℝ), 4] = 2 := by norm_num [rmean]

theorem rstd_test_col : rstd [(0 : ℝ), 4] = 2 := by
  rw [rstd, rmean_test_col]
  have h4 : rmean ([(0 : ℝ), 4].map (fun x => (x - 2) ^ 2)) = 4 := by
    norm_num [rmean]
  rw [h4, show (4 : ℝ) = 2 ^ 2 by norm_num,
    Real.sqrt_sq (by norm_num : (0:ℝ) ≤ 2)]

theorem ss_fit_transform_test : stdScale_fit_transform ssFull [[(0:ℝ), 4]]
    = [[-1, 1]] := by
  simp only [stdScale_fit_transform, stdScale_fit, stdScale_transform, ssFull,
    List.map_cons, List.map_nil, List.zipWith_cons_cons, List.zipWith_nil_right,
    if_true]
  rw [rmean_test_col, rstd_test_col]
  norm_num

theorem ss_train_params_on_test : stdScale_transform ssFull
    (stdScale_fit [[(0:ℝ), 2]]) [[(0:ℝ), 4]] = [[-1, 3]] := by
  simp only [stdScale_fit, stdScale_transform, ssFull,
    List.map_cons, List.map_nil, List.zipWith_cons_cons, List.zipWith_nil_right,
    if_true]
  rw [rmean_train_col, rstd_train_col]
  norm_num

theorem ss_refit_ne : stdScale_fit_transform ssFull [[(0:ℝ), 4]]
    ≠ stdScale_transform ssFull (stdScale_fit [[(0:ℝ), 2]]) [[(0:ℝ), 4]] := by
  rw [ss_fit_transform_test, ss_train_params_on_test]
  intro hcon
  simp at hcon

/-- C1 (code-bug exhibit): in the standardization steps of `run_pred_model`
and `run_forc_model` the scaler is refit on `X_test` rather than reusing the
parameters fit on `X_train`. On training column `[0, 2]` (mean 1, std 1) and
test column `[0, 4]` (mean 2, std 2) the code yields `X_test_ss = [[-1, 1]]`
— the values produced by parameters refit on the test table — which differs
from `[[-1, 3]]`, the transform of the test table under the train-fitted
parameters, refuting the claimed invariant on both pipelines. -/
theorem standardize_refits_on_test :
    (run_pred_model_standardize [[(0:ℝ), 2]] [[(0:ℝ), 4]]).2 = [[-1, 1]]
    ∧ stdScale_transform ssFull (stdScale_fit [[(0:ℝ), 2]]) [[(0:ℝ), 4]]
        = [[-1, 3]]
    ∧ (run_pred_model_standardize [[(0:ℝ), 2]] [[(0:ℝ), 4]]).2
        ≠ stdScale_transform ssFull (stdScale_fit [[(0:ℝ), 2]]) [[(0:ℝ), 4]]
    ∧ (run_forc_model_standardize [[(0:ℝ), 2]] [[(0:ℝ), 2]] [[(0:ℝ), 4]]).2.2
        ≠ stdScale_transform ssFull (stdScale_fit [[(0:ℝ), 2]]) [[(0:ℝ), 4]] := by
  have h1 : (run_pred_model_standardize [[(0:ℝ), 2]] [[(0:ℝ), 4]]).2
      = stdScale_fit_transform ssFull [[(0:ℝ), 4]] := rfl
  have h2 : (run_forc_model_standardize [[(0:ℝ), 2]] [[(0:ℝ), 2]]
      [[(0:ℝ), 4]]).2.2 = stdScale_fit_transform ssFull [[(0:ℝ), 4]] := rfl
  refine ⟨by rw [h1, ss_fit_transform_test], ss_train_params_on_test, ?_, ?_⟩
  · rw [h1]
    exact ss_refit_ne
  · rw [h2]
    exact ss_refit_ne
